import Mathlib

/-!
Shallow embedding of the query-builder core of a RavenDB Go client
(`abstract_document_query.go`, `load_operation.go`) together with the
parts of the token model and session that those files use.

Conventions of the embedding:
* Go `interface{}` query values are modelled by the inductive `GoValue`,
  with `GoValue.null` playing the role of Go `nil`.
* Go `map[string]interface{}` is modelled by an association list with
  overwrite-on-existing-key semantics (`mapSet`); `len` of the Go map is
  the list length, which agrees as long as keys are never duplicated,
  an invariant the operations preserve.
* Go functions that `panic` on invalid use are modelled as functions into
  `Except ConstructionError _`.
* `strconv.Itoa` on non-negative values is modelled by `itoa`, a standard
  base-10 printer defined below and proved injective.
-/

namespace RavenDBSpec

/-- Fuelled digit loop of a standard decimal printer: structural recursion
on the fuel keeps it kernel-reducible; the fuel never runs out when it
starts at least as large as the number. -/
def natDigitsRevAux : Nat → Nat → List Nat
  | 0, _ => []
  | _ + 1, 0 => []
  | fuel + 1, n + 1 => (n + 1) % 10 :: natDigitsRevAux fuel ((n + 1) / 10)

/-- Reverse (little-endian) list of base-10 digits of a natural number;
the digit loop of a standard decimal printer such as Go strconv.Itoa. -/
def natDigitsRev (n : Nat) : List Nat := natDigitsRevAux n n

/-- Inverse fold of `natDigitsRev`, used to prove the printer injective. -/
def ofDigitsRev : List Nat → Nat
  | [] => 0
  | d :: ds => d + 10 * ofDigitsRev ds

/-- Decimal digit character, as produced by a decimal printer. -/
def decDigitChar (d : Nat) : Char := Char.ofNat (48 + d)

/-- Model of Go strconv.Itoa for non-negative input: standard decimal
representation. -/
def itoa (n : Nat) : String :=
  if n = 0 then "0" else String.mk (((natDigitsRev n).map decDigitChar).reverse)

/-- Name generated by `addQueryParameter` for the given parameter count. -/
def paramName (n : Nat) : String := "p" ++ itoa n

/-- Model of Go `interface{}` values bound as query parameters.
`null` models Go `nil`. -/
inductive GoValue where
  | null
  | str (s : String)
  | int (n : Int)
  | boolean (b : Bool)
deriving DecidableEq, Repr

/-- Model of Go `map[string]interface{}` (the `Parameters` type):
an association list kept free of duplicate keys by `mapSet`. -/
abbrev Params := List (String × GoValue)

/-- Membership test of a key, Go `_, ok := m[k]`. -/
def mapContains (ps : Params) (k : String) : Bool := ps.any (fun kv => kv.1 == k)

/-- Go map assignment `m[k] = v`: overwrite if the key exists, append otherwise. -/
def mapSet (ps : Params) (k : String) (v : GoValue) : Params :=
  if mapContains ps k then ps.map (fun kv => if kv.1 == k then (k, v) else kv)
  else ps ++ [(k, v)]

/-- Go map lookup `m[k]` returning the first (unique) binding. -/
def mapGet? (ps : Params) (k : String) : Option GoValue :=
  (ps.find? (fun kv => kv.1 == k)).map Prod.snd

/-- Key list of the parameter map. -/
def mapKeys (ps : Params) : List String := ps.map Prod.fst

/-- QueryOperator from the source: the configurable default boolean operator. -/
inductive QueryOperator where
  | opAnd
  | opOr
deriving DecidableEq, Repr

/-- SearchOperator on where options; `unset` is the Go zero value
`SearchOperatorUnset`. -/
inductive SearchOperator where
  | unset
  | searchOr
  | searchAnd
deriving DecidableEq, Repr

/-- WhereOperator enumeration from the source (spatial and method variants
not exercised by any claim are omitted). -/
inductive WhereOperator where
  | equals
  | notEquals
  | inOp
  | allIn
  | startsWithOp
  | endsWithOp
  | between
  | greaterThan
  | greaterThanOrEqual
  | lessThan
  | lessThanOrEqual
  | search
  | lucene
  | existsOp
  | regex
deriving DecidableEq, Repr

/-- Modelled from the spec: `whereOptions` (its source file is not under
src/): exactness flag, boost/fuzzy/proximity modifiers, search operator and
range from/to parameter names.  Boost and fuzzy are Go float64 fields,
modelled as rationals; the Go zero value is 0. -/
structure WhereOptions where
  exact : Bool := false
  boost : ℚ := 0
  fuzzy : ℚ := 0
  proximity : Int := 0
  searchOperator : SearchOperator := SearchOperator.unset
  fromParameterName : String := ""
  toParameterName : String := ""
deriving DecidableEq, Repr

/-- Modelled from the spec: `NewWhereOptionsWithExact`. -/
def whereOptionsWithExact (exact : Bool) : WhereOptions := { exact := exact }

/-- Modelled from the spec: `NewWhereOptionsWithOperator` (search operator). -/
def whereOptionsWithOperator (op : SearchOperator) : WhereOptions :=
  { searchOperator := op }

/-- Modelled from the spec: `NewWhereOptionsWithFromTo`. -/
def whereOptionsWithFromTo (exact : Bool) (fromP toP : String) : WhereOptions :=
  { exact := exact, fromParameterName := fromP, toParameterName := toP }

/-- Token model: polymorphic `queryToken` variants used by the builder.
Fields mirror the token structs; rendering is in `writeToken` below.
`moreLikeThisTok` carries its own nested where-token list, the target of the
current-token-list indirection while a more-like-this scope is open. -/
inductive QueryToken where
  | whereTok (op : WhereOperator) (fieldName : String) (parameterName : String)
      (options : WhereOptions)
  | opTok (op : QueryOperator)
  | openSub
  | closeSub
  | negateTok
  | trueTok
  | intersectMarkerTok
  | distinctTok
  | groupByTok (fieldName : String)
  | orderByTok (fieldName : String) (descending : Bool)
  | fieldsToFetchTok (fields : List String)
  | moreLikeThisTok (whereTokens : List QueryToken)
deriving Repr

/-- Source `createWhereTokenWithOptions`; a Go `nil` options argument is
replaced by the default options (as required by `appendOperatorIfNeeded`,
which reads `options.searchOperator` of any where token unconditionally). -/
def createWhereTokenWithOptions (op : WhereOperator) (fieldName parameterName : String)
    (options : Option WhereOptions) : QueryToken :=
  QueryToken.whereTok op fieldName parameterName (options.getD {})

/-- Source `createWhereToken`. -/
def createWhereToken (op : WhereOperator) (fieldName parameterName : String) : QueryToken :=
  createWhereTokenWithOptions op fieldName parameterName none

/-- Discriminator: is this token a `whereToken`? -/
def isWhereTok : QueryToken → Bool
  | QueryToken.whereTok _ _ _ _ => true
  | _ => false

/-- Discriminator: is this token a `closeSubclauseToken`? -/
def isCloseSub : QueryToken → Bool
  | QueryToken.closeSub => true
  | _ => false

/-- Discriminator: is this token an `openSubclauseToken`? -/
def isOpenSub : QueryToken → Bool
  | QueryToken.openSub => true
  | _ => false

/-- Discriminator: is this token a `queryOperatorToken`? -/
def isOpTok : QueryToken → Bool
  | QueryToken.opTok _ => true
  | _ => false

/-- Discriminator: is this token an `intersectMarkerToken`? -/
def isIntersectMarker : QueryToken → Bool
  | QueryToken.intersectMarkerTok => true
  | _ => false

/-- Discriminator: is this token a `distinctToken`? -/
def isDistinctTok : QueryToken → Bool
  | QueryToken.distinctTok => true
  | _ => false

/-- Single-quote character, written via its code point to keep quote
handling in one place. -/
def sq : String := String.singleton (Char.ofNat 39)

/-- Character class accepted unquoted in field names and include paths:
letters, digits, underscore and dot (`isLetterOrDigit(ch) || ch == '_' ||
ch == '.'`; ASCII approximation of the unicode classes). -/
def isFieldChar (c : Char) : Bool := c.isAlphanum || c == '_' || c == '.'

/-- Modelled from the spec: `queryFieldUtilEscapeIfNecessary` (its source
file is not under src/): a field name containing characters outside
`[A-Za-z0-9_.]` is single-quoted with internal quotes escaped.  The scan
runs over the character list to stay kernel-reducible. -/
def queryFieldUtilEscapeIfNecessary (fieldName : String) : String :=
  if fieldName.data.all isFieldChar then fieldName
  else sq ++ (fieldName.replace sq ("\\" ++ sq)) ++ sq

/-- ASCII lower-casing over the character list (Go strings.ToLower on the
ids the claims use), kernel-reducible. -/
def toLowerStr (s : String) : String := String.mk (s.data.map Char.toLower)

/-- Identity property name of the document conventions (Go client uses the
exported `ID` field). -/
def documentConventionsIdentityPropertyName : String := "ID"

/-- Metadata field name standing for the document id in queries. -/
def indexingFieldNameDocumentID : String := "id()"

/-- Source `ensureValidFieldName`, for a builder attached to a session with
conventions (`assertValidFieldName` accepts every name in the source). -/
def ensureValidFieldName (isGroupBy : Bool) (fieldName : String) (isNestedPath : Bool) :
    String :=
  if isNestedPath || isGroupBy then queryFieldUtilEscapeIfNecessary fieldName
  else if fieldName = documentConventionsIdentityPropertyName then
    indexingFieldNameDocumentID
  else queryFieldUtilEscapeIfNecessary fieldName

/-- Source `transformValueWithRange` under the default conventions:
`nil` stays `nil`, the empty string stays itself, and the
`TryConvertValueForQuery` hook (conventions code is not under src/) is
modelled as declining plain strings/ints/bools, after which the source
returns the value unchanged. -/
def transformValueWithRange (p : GoValue) (_forRange : Bool) : GoValue :=
  match p with
  | GoValue.null => GoValue.null
  | GoValue.str "" => GoValue.str ""
  | v => v

/-- Source `transformValue`. -/
def transformValue (p : GoValue) : GoValue := transformValueWithRange p false

/-- Rendering of a where token's core text, modelled from the spec's token
rendering rules (token source files are not under src/): parameters are
referenced as `$name`. -/
def writeWhereCore (op : WhereOperator) (fieldName parameterName : String)
    (options : WhereOptions) : String :=
  match op with
  | WhereOperator.equals => fieldName ++ " = $" ++ parameterName
  | WhereOperator.notEquals => fieldName ++ " != $" ++ parameterName
  | WhereOperator.inOp => fieldName ++ " in ($" ++ parameterName ++ ")"
  | WhereOperator.allIn => fieldName ++ " all in ($" ++ parameterName ++ ")"
  | WhereOperator.startsWithOp => "startsWith(" ++ fieldName ++ ", $" ++ parameterName ++ ")"
  | WhereOperator.endsWithOp => "endsWith(" ++ fieldName ++ ", $" ++ parameterName ++ ")"
  | WhereOperator.between =>
      fieldName ++ " between $" ++ options.fromParameterName ++ " and $" ++
        options.toParameterName
  | WhereOperator.greaterThan => fieldName ++ " > $" ++ parameterName
  | WhereOperator.greaterThanOrEqual => fieldName ++ " >= $" ++ parameterName
  | WhereOperator.lessThan => fieldName ++ " < $" ++ parameterName
  | WhereOperator.lessThanOrEqual => fieldName ++ " <= $" ++ parameterName
  | WhereOperator.search =>
      "search(" ++ fieldName ++ ", $" ++ parameterName ++
        (if options.searchOperator = SearchOperator.searchAnd then ", and)" else ")")
  | WhereOperator.lucene => "lucene(" ++ fieldName ++ ", $" ++ parameterName ++ ")"
  | WhereOperator.existsOp => "exists(" ++ fieldName ++ ")"
  | WhereOperator.regex => "regex(" ++ fieldName ++ ", $" ++ parameterName ++ ")"

/-- Modelled from the spec: spacing decision between consecutive tokens
(`documentQueryHelperAddSpaceIfNeeded`, not under src/): no separator after a
just-opened subclause nor before a close-subclause or intersect marker. -/
def addSpaceIfNeeded (previous : Option QueryToken) (current : QueryToken) : String :=
  match previous with
  | none => ""
  | some p =>
      if isOpenSub p || isCloseSub current || isIntersectMarker current then ""
      else " "

/-- Modelled from the spec: `writeTo` of each token variant (token source
files are not under src/).  The boost/fuzzy/proximity wrappers are not
rendered because no claim exercises them; the `exact` wrapper is.
Rendering of a more-like-this token's nested list is elided for the same
reason. -/
def writeToken : QueryToken → String
  | QueryToken.whereTok op f p opts =>
      let core := writeWhereCore op f p opts
      if opts.exact then "exact(" ++ core ++ ")" else core
  | QueryToken.opTok QueryOperator.opAnd => "and"
  | QueryToken.opTok QueryOperator.opOr => "or"
  | QueryToken.openSub => "("
  | QueryToken.closeSub => ")"
  | QueryToken.negateTok => "not"
  | QueryToken.trueTok => "true"
  | QueryToken.intersectMarkerTok => ","
  | QueryToken.distinctTok => "distinct"
  | QueryToken.groupByTok f => f
  | QueryToken.orderByTok f descending => f ++ (if descending then " desc" else "")
  | QueryToken.fieldsToFetchTok fields => String.intercalate ", " fields
  | QueryToken.moreLikeThisTok _ => "moreLikeThis()"

/-- Rendering of a token list with the pairwise spacing rule, threading the
preceding token as in `buildWhere`. -/
def writeTokens : Option QueryToken → List QueryToken → String
  | _, [] => ""
  | prev, t :: ts => addSpaceIfNeeded prev t ++ writeToken t ++ writeTokens (some t) ts

/-- Errors of builder operations that `panic` (IllegalState/IllegalArgument)
in the Go source. -/
inductive ConstructionError where
  | rawQueryModify
  | parameterAlreadyAdded (name : String)
  | missingWhereClause
  | boostFactorNotPositive
  | doubleOperatorTokens
  | clauseNotClosed (depth : Int)
  | alreadyDistinct
  | groupByDynamicOnly
  | defaultOperatorAfterWhere
  | mltMissingWhereTokens
  | mltLastTokenNotMLT
deriving DecidableEq, Repr

/-- Boolean success test for `Except` results. -/
def isOkE {ε α : Type} : Except ε α → Bool
  | Except.ok _ => true
  | Except.error _ => false

/-- Source `fromToken` data: `isDynamic` is true exactly for collection
(non-index) queries. -/
structure FromTok where
  indexName : String
  collectionName : String
  aliasName : String
  isDynamic : Bool
deriving DecidableEq, Repr

/-- Source `createFromToken`. -/
def createFromToken (indexName collectionName fromAlias : String) : FromTok :=
  { indexName := indexName, collectionName := collectionName, aliasName := fromAlias,
    isDynamic := indexName = "" }

/-- Modelled from the spec: `fromToken.writeTo` (token source files are not
under src/): `from <collection>` for dynamic queries, `from index '<name>'`
otherwise, plus an optional alias. -/
def writeFromToken (t : FromTok) : String :=
  (if t.isDynamic then "from " ++ queryFieldUtilEscapeIfNecessary t.collectionName
   else "from index " ++ sq ++ t.indexName ++ sq) ++
  (if t.aliasName ≠ "" then " as " ++ t.aliasName else "")

/-- Builder state of `AbstractDocumentQuery`, restricted to the fields the
verified operations read or write.  `declareToken` and `loadTokens` carry
their rendered text; `fromToken` is always present, as produced by the
constructor that creates it eagerly (`NewAbstractDocumentQueryOld`). -/
structure AbstractDocumentQuery where
  defaultOperator : QueryOperator := QueryOperator.opAnd
  negate : Bool := false
  currentClauseDepth : Int := 0
  queryRaw : String := ""
  queryParameters : Params := []
  isIntersect : Bool := false
  isGroupBy : Bool := false
  pageSize : Option Int := none
  fromToken : FromTok
  declareToken : Option String := none
  loadTokens : List String := []
  selectTokens : List QueryToken := []
  whereTokens : List QueryToken := []
  groupByTokens : List QueryToken := []
  orderByTokens : List QueryToken := []
  start : Int := 0
  includes : List String := []
  isInMoreLikeThis : Bool := false
  disableCaching : Bool := false
  theWaitForNonStaleResults : Bool := false
deriving Repr

/-- Source `NewAbstractDocumentQueryOld` restricted to the modelled fields:
default operator AND, empty parameter map, eager from token. -/
def newAbstractDocumentQuery (indexName collectionName fromAlias : String) :
    AbstractDocumentQuery :=
  { fromToken := createFromToken indexName collectionName fromAlias }

/-- Source `getCurrentWhereTokens`/`getCurrentWhereTokensRef` (read
direction): top-level list normally, the nested list of a trailing
more-like-this token while that scope is open. -/
def getCurrentWhereTokens (q : AbstractDocumentQuery) :
    Except ConstructionError (List QueryToken) :=
  if !q.isInMoreLikeThis then Except.ok q.whereTokens
  else
    match q.whereTokens.getLast? with
    | none => Except.error ConstructionError.mltMissingWhereTokens
    | some (QueryToken.moreLikeThisTok inner) => Except.ok inner
    | some _ => Except.error ConstructionError.mltLastTokenNotMLT

/-- Write direction of the current-token-list indirection: writing through
the reference returned by `getCurrentWhereTokensRef`. -/
def setCurrentWhereTokens (q : AbstractDocumentQuery) (ts : List QueryToken) :
    AbstractDocumentQuery :=
  if !q.isInMoreLikeThis then { q with whereTokens := ts }
  else { q with whereTokens := q.whereTokens.dropLast ++ [QueryToken.moreLikeThisTok ts] }

/-- Backwards scan of `appendOperatorIfNeeded` locating the most recent
where token. -/
def findLastWhereOptionsAux : List QueryToken → Option WhereOptions
  | [] => none
  | t :: rest =>
      match t with
      | QueryToken.whereTok _ _ _ opts => some opts
      | _ => findLastWhereOptionsAux rest

/-- Options of the most recent where token in the list, if any. -/
def findLastWhereOptions (ts : List QueryToken) : Option WhereOptions :=
  findLastWhereOptionsAux ts.reverse

/-- Token-list core of source `appendOperatorIfNeeded`: if the last token is
a completed predicate or a closed subclause, append the default operator,
forced to OR when the most recent where token carries a search operator. -/
def appendOperatorIfNeededL (defaultOp : QueryOperator) (tokens : List QueryToken) :
    List QueryToken :=
  match tokens.getLast? with
  | none => tokens
  | some lastToken =>
      if isWhereTok lastToken || isCloseSub lastToken then
        let token := defaultOp
        let token :=
          match findLastWhereOptions tokens with
          | some opts =>
              if opts.searchOperator ≠ SearchOperator.unset then QueryOperator.opOr
              else token
          | none => token
        tokens ++ [QueryToken.opTok token]
      else tokens

/-- Source `appendOperatorIfNeeded` including its leading
`assertNoRawQuery`. -/
def appendOperatorIfNeededE (q : AbstractDocumentQuery) (ts : List QueryToken) :
    Except ConstructionError (List QueryToken) :=
  if q.queryRaw ≠ "" then Except.error ConstructionError.rawQueryModify
  else Except.ok (appendOperatorIfNeededL q.defaultOperator ts)

/-- Source `addQueryParameter`: the generated name is `p` followed by the
current size of the parameter map. -/
def addQueryParameter (value : GoValue) (q : AbstractDocumentQuery) :
    String × AbstractDocumentQuery :=
  let parameterName := paramName q.queryParameters.length
  (parameterName, { q with queryParameters := mapSet q.queryParameters parameterName value })

/-- Leading `$` removal of source `addParameter` (strings.TrimPrefix),
written on the character list to stay kernel-reducible. -/
def stripDollar (name : String) : String :=
  match name.data with
  | c :: rest => if c = '$' then String.mk rest else name
  | [] => name

/-- Source `addParameter`: explicit-name binding, failing on a name already
present. -/
def addParameter (name : String) (value : GoValue) (q : AbstractDocumentQuery) :
    Except ConstructionError AbstractDocumentQuery :=
  let name := stripDollar name
  if mapContains q.queryParameters name then
    Except.error (ConstructionError.parameterAlreadyAdded name)
  else Except.ok { q with queryParameters := mapSet q.queryParameters name value }

/-- Source `andAlso`: no-op on an empty list, error directly after another
operator token, otherwise append AND. -/
def andAlso (q : AbstractDocumentQuery) : Except ConstructionError AbstractDocumentQuery := do
  let ts ← getCurrentWhereTokens q
  match ts.getLast? with
  | none => Except.ok q
  | some lastToken =>
      if isOpTok lastToken then Except.error ConstructionError.doubleOperatorTokens
      else Except.ok (setCurrentWhereTokens q (ts ++ [QueryToken.opTok QueryOperator.opAnd]))

/-- Source `orElse`, symmetric to `andAlso`. -/
def orElse (q : AbstractDocumentQuery) : Except ConstructionError AbstractDocumentQuery := do
  let ts ← getCurrentWhereTokens q
  match ts.getLast? with
  | none => Except.ok q
  | some lastToken =>
      if isOpTok lastToken then Except.error ConstructionError.doubleOperatorTokens
      else Except.ok (setCurrentWhereTokens q (ts ++ [QueryToken.opTok QueryOperator.opOr]))

/-- Source `whereExists` specialized to a state whose negate flag is
cleared, as invoked from inside `negateIfNeeded` (which clears the flag
first); its `negateIfNeeded` call is the identity there.  The lemma
`whereExists_of_not_negate` below proves this agrees with `whereExists`. -/
def whereExistsNoNegate (f : String) (q : AbstractDocumentQuery) :
    Except ConstructionError AbstractDocumentQuery := do
  let fieldName := ensureValidFieldName q.isGroupBy f false
  let ts ← getCurrentWhereTokens q
  let ts ← appendOperatorIfNeededE q ts
  Except.ok (setCurrentWhereTokens q (ts ++ [createWhereToken WhereOperator.existsOp fieldName ""]))

/-- Source `whereTrue` specialized to a cleared negate flag, as invoked from
inside `negateIfNeeded`. -/
def whereTrueNoNegate (q : AbstractDocumentQuery) :
    Except ConstructionError AbstractDocumentQuery := do
  let ts ← getCurrentWhereTokens q
  let ts ← appendOperatorIfNeededE q ts
  Except.ok (setCurrentWhereTokens q (ts ++ [QueryToken.trueTok]))

/-- Source `negateIfNeeded`: consume the pending negation; when the current
list is empty or ends in an open subclause, the source calls
`whereExists(fieldName)` (or `whereTrue`) and `andAlso`, which append the
guard through the live token-list reference — but it then appends the
negate marker to the slice header `tokens` it captured *before* that
synthesis and overwrites `*tokensRef` with it, so the synthesized
exists/true and AND tokens are discarded: the visible effect is always the
captured list plus the negate marker.  (The upstream Java client, which
this code ports, appends to the live list instead.)  The final write below
therefore uses the `tokens` captured before the guard, not a re-read. -/
def negateIfNeeded (fieldName : String) (q : AbstractDocumentQuery) :
    Except ConstructionError AbstractDocumentQuery := do
  if !q.negate then Except.ok q
  else
    let q := { q with negate := false }
    let tokens ← getCurrentWhereTokens q
    let needGuard :=
      tokens.isEmpty ||
        (match tokens.getLast? with
         | some t => isOpenSub t
         | none => false)
    let q ←
      if needGuard then do
        let q ← if fieldName ≠ "" then whereExistsNoNegate fieldName q else whereTrueNoNegate q
        andAlso q
      else Except.ok q
    Except.ok (setCurrentWhereTokens q (tokens ++ [QueryToken.negateTok]))

/-- Source `whereExists`. -/
def whereExists (f : String) (q : AbstractDocumentQuery) :
    Except ConstructionError AbstractDocumentQuery := do
  let fieldName := ensureValidFieldName q.isGroupBy f false
  let ts ← getCurrentWhereTokens q
  let ts ← appendOperatorIfNeededE q ts
  let q := setCurrentWhereTokens q ts
  let q ← negateIfNeeded fieldName q
  let ts ← getCurrentWhereTokens q
  Except.ok (setCurrentWhereTokens q (ts ++ [createWhereToken WhereOperator.existsOp fieldName ""]))

/-- Source `whereTrue`. -/
def whereTrue (q : AbstractDocumentQuery) :
    Except ConstructionError AbstractDocumentQuery := do
  let ts ← getCurrentWhereTokens q
  let ts ← appendOperatorIfNeededE q ts
  let q := setCurrentWhereTokens q ts
  let q ← negateIfNeeded "" q
  let ts ← getCurrentWhereTokens q
  Except.ok (setCurrentWhereTokens q (ts ++ [QueryToken.trueTok]))

/-- Source `NegateNext`. -/
def negateNext (q : AbstractDocumentQuery) : AbstractDocumentQuery :=
  { q with negate := !q.negate }

/-- Transient `whereParams` record. -/
structure whereParams where
  fieldName : String := ""
  value : GoValue := GoValue.null
  isNestedPath : Bool := false
  allowWildcards : Bool := false
  isExact : Bool := false

/-- Negate-cleared body of source `whereEqualsWithParams` (its `ifValueIsMethod`
branch never fires because `GoValue` has no method-call variant). -/
def whereEqualsCore (p : whereParams) (q : AbstractDocumentQuery) :
    Except ConstructionError AbstractDocumentQuery := do
  let fieldName := ensureValidFieldName q.isGroupBy p.fieldName p.isNestedPath
  let ts ← getCurrentWhereTokens q
  let ts ← appendOperatorIfNeededE q ts
  let transformToEqualValue := transformValue p.value
  let (addedName, q) := addQueryParameter transformToEqualValue q
  let tok := createWhereTokenWithOptions WhereOperator.equals fieldName addedName
    (some (whereOptionsWithExact p.isExact))
  Except.ok (setCurrentWhereTokens q (ts ++ [tok]))

/-- Negate-cleared body of source `whereNotEqualsWithParams` (value transform
precedes the operator insertion there, mirroring the source order). -/
def whereNotEqualsCore (p : whereParams) (q : AbstractDocumentQuery) :
    Except ConstructionError AbstractDocumentQuery := do
  let transformToEqualValue := transformValue p.value
  let ts ← getCurrentWhereTokens q
  let ts ← appendOperatorIfNeededE q ts
  let fieldName := ensureValidFieldName q.isGroupBy p.fieldName p.isNestedPath
  let (addedName, q) := addQueryParameter transformToEqualValue q
  let tok := createWhereTokenWithOptions WhereOperator.notEquals fieldName addedName
    (some (whereOptionsWithExact p.isExact))
  Except.ok (setCurrentWhereTokens q (ts ++ [tok]))

/-- Source `whereEqualsWithParams`: a pending negation flips to the
not-equals form with the flag cleared. -/
def whereEqualsWithParams (p : whereParams) (q : AbstractDocumentQuery) :
    Except ConstructionError AbstractDocumentQuery :=
  if q.negate then whereNotEqualsCore p { q with negate := false }
  else whereEqualsCore p q

/-- Source `whereNotEqualsWithParams`. -/
def whereNotEqualsWithParams (p : whereParams) (q : AbstractDocumentQuery) :
    Except ConstructionError AbstractDocumentQuery :=
  if q.negate then whereEqualsCore p { q with negate := false }
  else whereNotEqualsCore p q

/-- Source `whereEquals`. -/
def whereEquals (fieldName : String) (value : GoValue) (q : AbstractDocumentQuery) :
    Except ConstructionError AbstractDocumentQuery :=
  whereEqualsWithParams { fieldName := fieldName, value := value } q

/-- Source `whereNotEquals`. -/
def whereNotEquals (fieldName : String) (value : GoValue) (q : AbstractDocumentQuery) :
    Except ConstructionError AbstractDocumentQuery :=
  whereNotEqualsWithParams { fieldName := fieldName, value := value } q

/-- Source `searchWithOperator`. -/
def searchWithOperator (fieldName searchTerms : String) (operator : SearchOperator)
    (q : AbstractDocumentQuery) : Except ConstructionError AbstractDocumentQuery := do
  let ts ← getCurrentWhereTokens q
  let ts ← appendOperatorIfNeededE q ts
  let q := setCurrentWhereTokens q ts
  let fieldName := ensureValidFieldName q.isGroupBy fieldName false
  let q ← negateIfNeeded fieldName q
  let (pName, q) := addQueryParameter (GoValue.str searchTerms) q
  let tok := createWhereTokenWithOptions WhereOperator.search fieldName pName
    (some (whereOptionsWithOperator operator))
  let ts ← getCurrentWhereTokens q
  Except.ok (setCurrentWhereTokens q (ts ++ [tok]))

/-- Source `search`: OR is the search operator passed by default. -/
def search (fieldName searchTerms : String) (q : AbstractDocumentQuery) :
    Except ConstructionError AbstractDocumentQuery :=
  searchWithOperator fieldName searchTerms SearchOperator.searchOr q

/-- Source `whereBetween`: both sentinels are chosen by the nullness of the
start value alone (the source marks this with a bug-question comment). -/
def whereBetween (f : String) (startV finishV : GoValue) (q : AbstractDocumentQuery) :
    Except ConstructionError AbstractDocumentQuery := do
  let fieldName := ensureValidFieldName q.isGroupBy f false
  let ts ← getCurrentWhereTokens q
  let ts ← appendOperatorIfNeededE q ts
  let q := setCurrentWhereTokens q ts
  let q ← negateIfNeeded fieldName q
  let fromParam := if startV = GoValue.null then GoValue.str "*"
    else transformValueWithRange startV true
  let (fromParameterName, q) := addQueryParameter fromParam q
  let toParam := if startV = GoValue.null then GoValue.str "NULL"
    else transformValueWithRange finishV true
  let (toParameterName, q) := addQueryParameter toParam q
  let tok := createWhereTokenWithOptions WhereOperator.between fieldName ""
    (some (whereOptionsWithFromTo false fromParameterName toParameterName))
  let ts ← getCurrentWhereTokens q
  Except.ok (setCurrentWhereTokens q (ts ++ [tok]))

/-- Source `openSubclause`: the depth increment precedes every check. -/
def openSubclause (q : AbstractDocumentQuery) :
    Except ConstructionError AbstractDocumentQuery := do
  let q := { q with currentClauseDepth := q.currentClauseDepth + 1 }
  let ts ← getCurrentWhereTokens q
  let ts ← appendOperatorIfNeededE q ts
  let q := setCurrentWhereTokens q ts
  let q ← negateIfNeeded "" q
  let ts ← getCurrentWhereTokens q
  Except.ok (setCurrentWhereTokens q (ts ++ [QueryToken.openSub]))

/-- Source `closeSubclause`: decrement and append, with no balance or raw
check of its own. -/
def closeSubclause (q : AbstractDocumentQuery) :
    Except ConstructionError AbstractDocumentQuery := do
  let q := { q with currentClauseDepth := q.currentClauseDepth - 1 }
  let ts ← getCurrentWhereTokens q
  Except.ok (setCurrentWhereTokens q (ts ++ [QueryToken.closeSub]))

/-- Source `usingDefaultOperator`: only before any where clause. -/
def usingDefaultOperator (operator : QueryOperator) (q : AbstractDocumentQuery) :
    Except ConstructionError AbstractDocumentQuery :=
  if 0 < q.whereTokens.length then Except.error ConstructionError.defaultOperatorAfterWhere
  else Except.ok { q with defaultOperator := operator }

/-- Source `isDistinct`. -/
def isDistinctQ (q : AbstractDocumentQuery) : Bool :=
  match q.selectTokens.head? with
  | some t => isDistinctTok t
  | none => false

/-- Source `distinct`: prepend the unique distinct marker, failing when one
is already present; no raw-query check. -/
def distinct (q : AbstractDocumentQuery) :
    Except ConstructionError AbstractDocumentQuery :=
  if isDistinctQ q then Except.error ConstructionError.alreadyDistinct
  else Except.ok { q with selectTokens := QueryToken.distinctTok :: q.selectTokens }

/-- Source `orderByWithOrdering` specialized to string ordering (the
`OrderingType` suffix is not rendered by any claim). -/
def orderBy (field : String) (q : AbstractDocumentQuery) :
    Except ConstructionError AbstractDocumentQuery :=
  if q.queryRaw ≠ "" then Except.error ConstructionError.rawQueryModify
  else
    let f := ensureValidFieldName q.isGroupBy field false
    Except.ok { q with orderByTokens := q.orderByTokens ++ [QueryToken.orderByTok f false] }

/-- Source `orderByDescendingWithOrdering` specialized to string ordering. -/
def orderByDescending (field : String) (q : AbstractDocumentQuery) :
    Except ConstructionError AbstractDocumentQuery :=
  if q.queryRaw ≠ "" then Except.error ConstructionError.rawQueryModify
  else
    let f := ensureValidFieldName q.isGroupBy field false
    Except.ok { q with orderByTokens := q.orderByTokens ++ [QueryToken.orderByTok f true] }

/-- Source `groupBy`/`groupBy2` for a single plain field: the
dynamic-query check precedes the raw-query assertion. -/
def groupByField (fieldName : String) (q : AbstractDocumentQuery) :
    Except ConstructionError AbstractDocumentQuery :=
  if !q.fromToken.isDynamic then Except.error ConstructionError.groupByDynamicOnly
  else if q.queryRaw ≠ "" then Except.error ConstructionError.rawQueryModify
  else
    let q := { q with isGroupBy := true }
    let f := ensureValidFieldName q.isGroupBy fieldName false
    Except.ok { q with groupByTokens := q.groupByTokens ++ [QueryToken.groupByTok f] }

/-- Source `boost`: a factor of exactly 1.0 returns before any check;
otherwise the last current token must be a where token and the factor
positive. -/
def boost (b : ℚ) (q : AbstractDocumentQuery) :
    Except ConstructionError AbstractDocumentQuery :=
  if b = 1 then Except.ok q
  else
    match getCurrentWhereTokens q with
    | Except.error e => Except.error e
    | Except.ok ts =>
        match ts.getLast? with
        | none => Except.error ConstructionError.missingWhereClause
        | some (QueryToken.whereTok op f p opts) =>
            if b ≤ 0 then Except.error ConstructionError.boostFactorNotPositive
            else Except.ok (setCurrentWhereTokens q
              (ts.dropLast ++ [QueryToken.whereTok op f p { opts with boost := b }]))
        | some _ => Except.error ConstructionError.missingWhereClause

/-- Source `take` (`q.pageSize = count`). -/
def take (count : Int) (q : AbstractDocumentQuery) : AbstractDocumentQuery :=
  { q with pageSize := some count }

/-- Source `skip` (`q.start = count`). -/
def skip (count : Int) (q : AbstractDocumentQuery) : AbstractDocumentQuery :=
  { q with start := count }

/-- Source `include` method (named `includeCall` here because `include` is a
Lean keyword): append to the include list, with no raw-query check. -/
def includeCall (path : String) (q : AbstractDocumentQuery) : AbstractDocumentQuery :=
  { q with includes := q.includes ++ [path] }

/-- Local-state effect of source `Count`: the `take(&tmp)` block with
`tmp = 0`, executed unconditionally before the query runs. -/
def countPrepare (q : AbstractDocumentQuery) : AbstractDocumentQuery := take 0 q

/-- Local-state effect of the non-distinct branch of source `Any`, identical
to the count preparation. -/
def anyPrepare (q : AbstractDocumentQuery) : AbstractDocumentQuery := take 0 q

/-- Guard of source `executeQueryOperation`:
`take != 0 && (q.pageSize == nil || *q.pageSize > take)`. -/
def executeQueryOperationGuard (t : Int) (ps : Option Int) : Bool :=
  t != 0 &&
    (match ps with
     | none => true
     | some p => p > t)

/-- Page-size effect of source `executeQueryOperation` for a given internal
take request. -/
def executeQueryOperationTake (t : Int) (q : AbstractDocumentQuery) :
    AbstractDocumentQuery :=
  if executeQueryOperationGuard t q.pageSize then take t q else q

/-- Compiled request shape (`IndexQuery`), restricted to the modelled
fields; `pageSize = none` models the page size never having been set. -/
structure IndexQuery where
  queryText : String
  start : Int
  pageSize : Option Int
  waitForNonStaleResults : Bool
  queryParameters : Params
  disableCaching : Bool
deriving Repr

/-- Source `GenerateIndexQuery`: copy the builder request fields; the page
size is copied only when set. -/
def generateIndexQuery (q : AbstractDocumentQuery) (queryText : String) : IndexQuery :=
  { queryText := queryText, start := q.start, pageSize := q.pageSize,
    waitForNonStaleResults := q.theWaitForNonStaleResults,
    queryParameters := q.queryParameters, disableCaching := q.disableCaching }

/-- Source `buildDeclare`. -/
def buildDeclare (q : AbstractDocumentQuery) : String := q.declareToken.getD ""

/-- Source `buildFrom`. -/
def buildFrom (q : AbstractDocumentQuery) : String := writeFromToken q.fromToken

/-- Source `buildGroupBy`: clause omitted when empty, tokens joined by
`", "`. -/
def buildGroupBy (q : AbstractDocumentQuery) : String :=
  if q.groupByTokens.isEmpty then ""
  else " group by " ++ String.intercalate ", " (q.groupByTokens.map writeToken)

/-- Source `buildWhere`: clause omitted when empty, tokens rendered with the
pairwise spacing rule, wrapped in `intersect(...)` when intersecting. -/
def buildWhere (q : AbstractDocumentQuery) : String :=
  if q.whereTokens.isEmpty then ""
  else
    " where " ++ (if q.isIntersect then "intersect(" else "") ++
      writeTokens none q.whereTokens ++ (if q.isIntersect then ") " else "")

/-- Source `buildOrderBy`: clause omitted when empty, tokens joined by
`", "`. -/
def buildOrderBy (q : AbstractDocumentQuery) : String :=
  if q.orderByTokens.isEmpty then ""
  else " order by " ++ String.intercalate ", " (q.orderByTokens.map writeToken)

/-- Source `buildLoad`: clause omitted when empty, fragments joined by
`", "`. -/
def buildLoad (q : AbstractDocumentQuery) : String :=
  if q.loadTokens.isEmpty then ""
  else " load " ++ String.intercalate ", " q.loadTokens

/-- Loop of source `buildSelect`: comma between tokens except right after
the distinct marker, then the pairwise spacing rule. -/
def buildSelectLoop : Option QueryToken → List QueryToken → String
  | _, [] => ""
  | prev, t :: ts =>
      (match prev with
       | none => ""
       | some p => if isDistinctTok p then "" else ",") ++
        addSpaceIfNeeded prev t ++ writeToken t ++ buildSelectLoop (some t) ts

/-- Body of source `buildSelect` on the select-token list: clause omitted
when empty; a lone distinct marker renders as `select distinct *`. -/
def buildSelectList (ts : List QueryToken) : String :=
  match ts with
  | [] => ""
  | [QueryToken.distinctTok] => " select distinct *"
  | ts => " select " ++ buildSelectLoop none ts

/-- Source `buildSelect`. -/
def buildSelect (q : AbstractDocumentQuery) : String := buildSelectList q.selectTokens

/-- Quoting of one include path as in source `buildInclude`: quote when any
character falls outside the field-name class, escaping internal quotes. -/
def renderIncludePath (s : String) : String :=
  if s.data.all isFieldChar then s
  else sq ++ (s.replace sq ("\\" ++ sq)) ++ sq

/-- Source `buildInclude`: clause omitted when empty; duplicates removed
keeping first occurrences (`stringArrayRemoveDuplicates`), paths joined by
`","`. -/
def buildInclude (q : AbstractDocumentQuery) : String :=
  if q.includes.isEmpty then ""
  else " include " ++ String.intercalate "," (q.includes.eraseDups.map renderIncludePath)

/-- Source `String()` (named `renderQuery` here): raw text wins outright;
otherwise an unbalanced clause depth is a construction error, and the
clauses are emitted in the fixed order declare, from, group by, where,
order by, load, select, include. -/
def renderQuery (q : AbstractDocumentQuery) : Except ConstructionError String :=
  if q.queryRaw ≠ "" then Except.ok q.queryRaw
  else if q.currentClauseDepth ≠ 0 then
    Except.error (ConstructionError.clauseNotClosed q.currentClauseDepth)
  else
    Except.ok (buildDeclare q ++ buildFrom q ++ buildGroupBy q ++ buildWhere q ++
      buildOrderBy q ++ buildLoad q ++ buildSelect q ++ buildInclude q)

/-- Modelled from the spec: the slice of session state the load operation
consults (`InMemoryDocumentSessionOperations` is not under src/): ids
resident in the identity map or known-deleted. -/
structure SessionModel where
  loadedOrDeleted : List String
deriving Repr

/-- Modelled from the spec: `IsLoadedOrDeleted` membership; the session's
document map is keyed case-insensitively. -/
def isLoadedOrDeleted (sess : SessionModel) (id : String) : Bool :=
  sess.loadedOrDeleted.any (fun x => toLowerStr x == toLowerStr id)

/-- Modelled from the spec: `checkIfIdAlreadyIncluded`: true when every
requested id is already tracked and there are no include paths to verify. -/
def checkIfIdAlreadyIncluded (sess : SessionModel) (ids includes : List String) : Bool :=
  includes.isEmpty && ids.all (fun id => isLoadedOrDeleted sess id)

/-- State of source `LoadOperation` (fields `_ids`, `_includes`,
`_idsToCheckOnServer`). -/
structure LoadOperation where
  ids : List String := []
  includes : List String := []
  idsToCheckOnServer : List String := []
deriving DecidableEq, Repr

/-- Outgoing request of source `createRequest`
(`NewGetDocumentsCommand(idsToCheckOnServer, includes, false)`). -/
structure GetDocumentsCommand where
  keys : List String
  includes : List String
  metadataOnly : Bool
deriving DecidableEq, Repr

/-- Source `byId`: skip blank ids and ids already loaded or deleted;
otherwise queue the id for the server. -/
def byId (sess : SessionModel) (o : LoadOperation) (id : String) : LoadOperation :=
  if id = "" then o
  else
    let o := if o.ids.isEmpty then { o with ids := [id] } else o
    if isLoadedOrDeleted sess id then o
    else { o with idsToCheckOnServer := o.idsToCheckOnServer ++ [id] }

/-- Modelled from the spec: one insertion step of `Set_String` with the
case-insensitive comparator (`String_compareToIgnoreCase`; the set type is
not under src/): keep the first occurrence of each case-insensitive class,
in insertion order. -/
def addCaseInsensitive (acc : List String) (id : String) : List String :=
  if acc.any (fun x => toLowerStr x == toLowerStr id) then acc else acc ++ [id]

/-- Case-insensitive deduplication used by `byIds`. -/
def dedupCaseInsensitive (ids : List String) : List String :=
  ids.foldl addCaseInsensitive []

/-- Source `byIds`: record the requested ids, deduplicate the non-empty ones
case-insensitively, then run `byId` on each survivor. -/
def byIds (sess : SessionModel) (o : LoadOperation) (ids : List String) : LoadOperation :=
  let o := { o with ids := ids }
  let distinctIds := dedupCaseInsensitive (ids.filter (fun id => id ≠ ""))
  distinctIds.foldl (byId sess) o

/-- Source `createRequest`: no request when nothing must be checked on the
server or everything requested is already included. -/
def createRequest (sess : SessionModel) (o : LoadOperation) : Option GetDocumentsCommand :=
  if o.idsToCheckOnServer.isEmpty then none
  else if checkIfIdAlreadyIncluded sess o.ids o.includes then none
  else some { keys := o.idsToCheckOnServer, includes := o.includes, metadataOnly := false }

/-- Dynamic collection query over `users`, the running example builder. -/
def freshUsersQuery : AbstractDocumentQuery := newAbstractDocumentQuery "" "users" ""

/-- Builder that has received raw query text. -/
def rawUsersQuery : AbstractDocumentQuery :=
  { freshUsersQuery with queryRaw := "from users" }

/-- Two whereEquals calls under the default (AND) operator. -/
def exTwoEqualsAnd : Except ConstructionError AbstractDocumentQuery := do
  let q ← whereEquals "name" (GoValue.str "John") freshUsersQuery
  whereEquals "age" (GoValue.int 30) q

/-- Two whereEquals calls with the default operator configured to OR. -/
def exTwoEqualsOr : Except ConstructionError AbstractDocumentQuery := do
  let q ← usingDefaultOperator QueryOperator.opOr freshUsersQuery
  let q ← whereEquals "name" (GoValue.str "John") q
  whereEquals "age" (GoValue.int 30) q

/-- negateNext followed by whereExists on a fresh query. -/
def exNegatedExists : Except ConstructionError AbstractDocumentQuery :=
  whereExists "name" (negateNext freshUsersQuery)

/-- Condition under which `appendOperatorIfNeeded` forces OR: the most
recent where token exists and carries a search operator. -/
def searchForcedOr (ts : List QueryToken) : Bool :=
  match findLastWhereOptions ts with
  | some opts => opts.searchOperator != SearchOperator.unset
  | none => false

/-- Repeated `addQueryParameter` calls, in order. -/
def addQueryParameters (vs : List GoValue) (q : AbstractDocumentQuery) :
    AbstractDocumentQuery :=
  vs.foldl (fun q v => (addQueryParameter v q).2) q

/-- Invariant of a builder that has only ever generated parameter names:
the keys are exactly `p0 .. p(k-1)` in order. -/
def CanonicalKeys (ps : Params) : Prop :=
  mapKeys ps = (List.range ps.length).map paramName

/-! Helper lemmas: the decimal printer is injective. -/

theorem natDigitsRevAux_fuel (n : Nat) : ∀ f g : Nat, n ≤ f → n ≤ g →
    natDigitsRevAux f n = natDigitsRevAux g n := by
  induction n using Nat.strong_induction_on with
  | _ n ih =>
    intro f g hf hg
    match n, f, g with
    | 0, f, g => rcases f with _ | f <;> rcases g with _ | g <;> rfl
    | Nat.succ m, Nat.succ f, Nat.succ g =>
      show (m + 1) % 10 :: natDigitsRevAux f ((m + 1) / 10) =
        (m + 1) % 10 :: natDigitsRevAux g ((m + 1) / 10)
      have hlt : (m + 1) / 10 < m + 1 := Nat.div_lt_self (Nat.succ_pos m) (by decide)
      rw [ih ((m + 1) / 10) hlt f g (by omega) (by omega)]

theorem natDigitsRev_succ (m : Nat) :
    natDigitsRev (m + 1) = (m + 1) % 10 :: natDigitsRev ((m + 1) / 10) := by
  show natDigitsRevAux (m + 1) (m + 1) = (m + 1) % 10 :: natDigitsRevAux ((m + 1) / 10) ((m + 1) / 10)
  show (m + 1) % 10 :: natDigitsRevAux m ((m + 1) / 10) = _
  have hlt : (m + 1) / 10 < m + 1 := Nat.div_lt_self (Nat.succ_pos m) (by decide)
  rw [natDigitsRevAux_fuel ((m + 1) / 10) m ((m + 1) / 10) (by omega) (le_refl _)]

theorem ofDigitsRev_natDigitsRev (n : Nat) : ofDigitsRev (natDigitsRev n) = n := by
  induction n using Nat.strong_induction_on with
  | _ n ih =>
    match n with
    | 0 => simp [natDigitsRev, natDigitsRevAux, ofDigitsRev]
    | Nat.succ m =>
      rw [natDigitsRev_succ, ofDigitsRev,
        ih ((m + 1) / 10) (Nat.div_lt_self (Nat.succ_pos m) (by decide))]
      exact Nat.mod_add_div (m + 1) 10

theorem natDigitsRev_lt_ten (n : Nat) : ∀ d ∈ natDigitsRev n, d < 10 := by
  induction n using Nat.strong_induction_on with
  | _ n ih =>
    match n with
    | 0 => simp [natDigitsRev, natDigitsRevAux]
    | Nat.succ m =>
      rw [natDigitsRev_succ]
      intro d hd
      rcases List.mem_cons.mp hd with h | h
      · exact h ▸ Nat.mod_lt _ (by decide)
      · exact ih ((m + 1) / 10) (Nat.div_lt_self (Nat.succ_pos m) (by decide)) d h

theorem natDigitsRev_injective : Function.Injective natDigitsRev := by
  intro a b h
  have := congrArg ofDigitsRev h
  rwa [ofDigitsRev_natDigitsRev, ofDigitsRev_natDigitsRev] at this

theorem decDigitChar_inj_small :
    ∀ a, a < 10 → ∀ b, b < 10 → decDigitChar a = decDigitChar b → a = b := by decide

theorem map_decDigitChar_inj :
    ∀ l₁ l₂ : List Nat, (∀ d ∈ l₁, d < 10) → (∀ d ∈ l₂, d < 10) →
      l₁.map decDigitChar = l₂.map decDigitChar → l₁ = l₂ := by
  intro l₁
  induction l₁ with
  | nil =>
    intro l₂ _ _ h
    cases l₂ with
    | nil => rfl
    | cons b bs => simp at h
  | cons a as ihAs =>
    intro l₂ h₁ h₂ h
    cases l₂ with
    | nil => simp at h
    | cons b bs =>
      simp only [List.map_cons, List.cons.injEq] at h
      have ha : a = b :=
        decDigitChar_inj_small a (h₁ a (List.mem_cons_self a as)) b
          (h₂ b (List.mem_cons_self b bs)) h.1
      have hs : as = bs :=
        ihAs bs (fun d hd => h₁ d (List.mem_cons_of_mem a hd))
          (fun d hd => h₂ d (List.mem_cons_of_mem b hd)) h.2
      rw [ha, hs]

theorem string_data_inj {s t : String} (h : s.data = t.data) : s = t := by
  cases s
  cases t
  exact congrArg String.mk h

theorem itoa_injective : Function.Injective itoa := by
  intro m n h
  unfold itoa at h
  by_cases hm : m = 0 <;> by_cases hn : n = 0
  · rw [hm, hn]
  · exfalso
    rw [if_pos hm, if_neg hn] at h
    have hdata := congrArg String.data h
    have hrev := congrArg List.reverse hdata
    simp only [List.reverse_reverse] at hrev
    have : (natDigitsRev n).map decDigitChar = [0].map decDigitChar := by
      simpa [decDigitChar] using hrev.symm
    have hd := map_decDigitChar_inj (natDigitsRev n) [0] (natDigitsRev_lt_ten n)
      (by intro d hd; simp at hd; omega) this
    have := congrArg ofDigitsRev hd
    rw [ofDigitsRev_natDigitsRev] at this
    simp [ofDigitsRev] at this
    exact hn this
  · exfalso
    rw [if_neg hm, if_pos hn] at h
    have hdata := congrArg String.data h
    have hrev := congrArg List.reverse hdata
    simp only [List.reverse_reverse] at hrev
    have : (natDigitsRev m).map decDigitChar = [0].map decDigitChar := by
      simpa [decDigitChar] using hrev
    have hd := map_decDigitChar_inj (natDigitsRev m) [0] (natDigitsRev_lt_ten m)
      (by intro d hd; simp at hd; omega) this
    have := congrArg ofDigitsRev hd
    rw [ofDigitsRev_natDigitsRev] at this
    simp [ofDigitsRev] at this
    exact hm this
  · rw [if_neg hm, if_neg hn] at h
    have hdata := congrArg String.data h
    have hrev := congrArg List.reverse hdata
    simp only [List.reverse_reverse] at hrev
    exact natDigitsRev_injective
      (map_decDigitChar_inj _ _ (natDigitsRev_lt_ten m) (natDigitsRev_lt_ten n) hrev)

theorem paramName_injective : Function.Injective paramName := by
  intro a b h
  have hdata := congrArg String.data h
  simp only [paramName] at hdata
  have : (itoa a).data = (itoa b).data := by
    have : ("p".data ++ (itoa a).data) = ("p".data ++ (itoa b).data) := hdata
    exact List.append_cancel_left this
  exact itoa_injective (string_data_inj this)

/-! Helper lemmas: the assoc-list model of the Go parameter map. -/

theorem mapContains_iff (ps : Params) (k : String) :
    mapContains ps k = true ↔ k ∈ mapKeys ps := by
  simp only [mapContains, List.any_eq_true, beq_iff_eq, mapKeys, List.mem_map]

theorem mapSet_of_not_contains (ps : Params) (k : String) (v : GoValue)
    (h : mapContains ps k = false) : mapSet ps k v = ps ++ [(k, v)] := by
  simp [mapSet, h]

theorem mapGet?_of_not_contains (ps : Params) (k : String) (v : GoValue)
    (h : mapContains ps k = false) : mapGet? (ps ++ [(k, v)]) k = some v := by
  induction ps with
  | nil => simp [mapGet?]
  | cons kv ps ih =>
    simp only [mapContains, List.any_cons, Bool.or_eq_false_iff] at h
    have ih' := ih h.2
    simp only [List.cons_append, mapGet?, List.find?_cons, h.1]
    simpa [mapGet?] using ih'

theorem mapGet?_append_ne (ps : Params) (k k' : String) (v : GoValue) (h : k' ≠ k) :
    mapGet? (ps ++ [(k', v)]) k = mapGet? ps k := by
  induction ps with
  | nil =>
    have : ((k', v).1 == k) = false := by
      simpa using h
    simp [mapGet?, List.find?_cons, this]
  | cons kv ps ih =>
    by_cases hk : (kv.1 == k) = true
    · simp [mapGet?, List.find?_cons, hk]
    · have hk' : (kv.1 == k) = false := by simpa using hk
      simp only [List.cons_append, mapGet?, List.find?_cons, hk']
      simpa [mapGet?] using ih

theorem paramName_fresh (n : Nat) : paramName n ∉ (List.range n).map paramName := by
  intro h
  rcases List.mem_map.mp h with ⟨i, hi, hip⟩
  have heq : i = n := paramName_injective hip
  have := List.mem_range.mp hi
  omega

theorem canonicalKeys_addQueryParameter (q : AbstractDocumentQuery) (v : GoValue)
    (h : CanonicalKeys q.queryParameters) :
    (addQueryParameter v q).1 = paramName q.queryParameters.length ∧
    mapContains q.queryParameters (paramName q.queryParameters.length) = false ∧
    CanonicalKeys (addQueryParameter v q).2.queryParameters ∧
    (addQueryParameter v q).2.queryParameters.length = q.queryParameters.length + 1 := by
  have hfresh : mapContains q.queryParameters (paramName q.queryParameters.length) = false := by
    by_contra hc
    have : mapContains q.queryParameters (paramName q.queryParameters.length) = true := by
      simpa using hc
    have hmem := (mapContains_iff _ _).mp this
    rw [h] at hmem
    exact paramName_fresh _ hmem
  have hset := mapSet_of_not_contains q.queryParameters
    (paramName q.queryParameters.length) v hfresh
  refine ⟨rfl, hfresh, ?_, ?_⟩
  · show CanonicalKeys (mapSet q.queryParameters (paramName q.queryParameters.length) v)
    rw [hset]
    unfold CanonicalKeys at h ⊢
    simp only [mapKeys, List.map_append, List.length_append, List.map_cons, List.map_nil,
      List.length_cons, List.length_nil]
    rw [show q.queryParameters.length + (0 + 1) = q.queryParameters.length + 1 by omega,
      List.range_succ, List.map_append]
    simp only [List.map_cons, List.map_nil]
    simp only [mapKeys] at h
    rw [h]
  · show (mapSet q.queryParameters (paramName q.queryParameters.length) v).length =
      q.queryParameters.length + 1
    rw [hset]
    simp

theorem canonicalKeys_addQueryParameters (vs : List GoValue) :
    ∀ q : AbstractDocumentQuery, CanonicalKeys q.queryParameters →
      CanonicalKeys (addQueryParameters vs q).queryParameters ∧
      (addQueryParameters vs q).queryParameters.length =
        q.queryParameters.length + vs.length := by
  induction vs with
  | nil => intro q h; exact ⟨h, rfl⟩
  | cons v vs ih =>
    intro q h
    have hstep := canonicalKeys_addQueryParameter q v h
    have hrec := ih (addQueryParameter v q).2 hstep.2.2.1
    refine ⟨hrec.1, ?_⟩
    rw [show addQueryParameters (v :: vs) q = addQueryParameters vs (addQueryParameter v q).2
      from rfl]
    rw [hrec.2, hstep.2.2.2]
    simp [List.length_cons]
    try omega

/-- C4: on a builder, `addQueryParameter` generates the names `p0`, `p1`,
`p2`, … with strictly increasing indices; the names are pairwise distinct,
each generated name is absent from the parameter map at the moment it is
generated, and the explicit-name path `addParameter` raises a construction
error on a name that is already present. -/
theorem c4_parameter_names :
    Function.Injective paramName ∧
    (∀ n, paramName n ∉ (List.range n).map paramName) ∧
    (∀ (v : GoValue) (q : AbstractDocumentQuery), CanonicalKeys q.queryParameters →
      (addQueryParameter v q).1 = paramName q.queryParameters.length ∧
      mapContains q.queryParameters (addQueryParameter v q).1 = false ∧
      CanonicalKeys (addQueryParameter v q).2.queryParameters) ∧
    (∀ (vs : List GoValue) (q : AbstractDocumentQuery), q.queryParameters = [] →
      mapKeys (addQueryParameters vs q).queryParameters =
        (List.range vs.length).map paramName ∧
      (mapKeys (addQueryParameters vs q).queryParameters).Nodup) ∧
    (∀ (name : String) (v : GoValue) (q : AbstractDocumentQuery),
      mapContains q.queryParameters (stripDollar name) = true →
      addParameter name v q =
        Except.error (ConstructionError.parameterAlreadyAdded (stripDollar name))) := by
  refine ⟨paramName_injective, paramName_fresh, ?_, ?_, ?_⟩
  · intro v q h
    have hstep := canonicalKeys_addQueryParameter q v h
    exact ⟨hstep.1, hstep.2.1, hstep.2.2.1⟩
  · intro vs q hq
    have h0 : CanonicalKeys q.queryParameters := by
      rw [CanonicalKeys, hq]
      rfl
    obtain ⟨hck, hlen⟩ := canonicalKeys_addQueryParameters vs q h0
    rw [CanonicalKeys] at hck
    rw [hq] at hlen
    simp only [List.length_nil, Nat.zero_add] at hlen
    rw [hlen] at hck
    refine ⟨hck, ?_⟩
    rw [hck]
    exact (List.nodup_range vs.length).map paramName_injective
  · intro name v q h
    simp [addParameter, h]

/-- Witness for C4 at concrete inputs: three generated names are
`p0, p1, p2`, and re-adding `p0` explicitly errors. -/
theorem c4_witness :
    mapKeys (addQueryParameters [GoValue.int 1, GoValue.int 2, GoValue.int 3]
        freshUsersQuery).queryParameters = ["p0", "p1", "p2"] ∧
    addParameter "p0" (GoValue.int 9) (addQueryParameter (GoValue.int 1) freshUsersQuery).2 =
      Except.error (ConstructionError.parameterAlreadyAdded "p0") := by
  constructor
  · have h := (c4_parameter_names.2.2.2.1 [GoValue.int 1, GoValue.int 2, GoValue.int 3]
      freshUsersQuery rfl).1
    rw [h]
    rfl
  · have h := c4_parameter_names.2.2.2.2 "p0" (GoValue.int 9)
      (addQueryParameter (GoValue.int 1) freshUsersQuery).2 (by rfl)
    simpa using h

/-- C1 counterexample: after `take(50)`, the unconditional `take(&tmp)`
block of `Count` sets the effective page size to 0, not 50. -/
theorem c1_counterexample :
    (countPrepare (take 50 freshUsersQuery)).pageSize = some 0 ∧
    (generateIndexQuery (countPrepare (take 50 freshUsersQuery)) "from users").pageSize ≠
      some 50 := by
  exact ⟨rfl, by simp [generateIndexQuery, countPrepare, take]⟩

/-- C1 amended: `Count` and the non-distinct `Any` branch set the page size
to 0 unconditionally, shrinking any explicit page size; the
no-shrink guard belongs to `executeQueryOperation`'s internal take, which
ignores a zero take entirely and applies a nonzero take only when no page
size is set or the existing page size exceeds it. -/
theorem c1_page_size (q : AbstractDocumentQuery) (n : Int) (_hn : 0 < n) :
    (countPrepare (take n q)).pageSize = some 0 ∧
    (anyPrepare (take n q)).pageSize = some 0 ∧
    executeQueryOperationTake 0 q = q ∧
    (∀ t ps : Int, q.pageSize = some ps → ps ≤ t → executeQueryOperationTake t q = q) ∧
    (∀ t : Int, t ≠ 0 → q.pageSize = none → executeQueryOperationTake t q = take t q) ∧
    (∀ t ps : Int, t ≠ 0 → q.pageSize = some ps → t < ps →
      executeQueryOperationTake t q = take t q) := by
  refine ⟨rfl, rfl, ?_, ?_, ?_, ?_⟩
  · simp [executeQueryOperationTake, executeQueryOperationGuard]
  · intro t ps hps hle
    simp [executeQueryOperationTake, executeQueryOperationGuard, hps, not_lt.mpr hle]
  · intro t ht hnone
    simp [executeQueryOperationTake, executeQueryOperationGuard, hnone, ht]
  · intro t ps ht hps hlt
    simp [executeQueryOperationTake, executeQueryOperationGuard, hps, ht, hlt]

/-- Witness for C1 at `n = 50` on the fresh builder. -/
theorem c1_witness :
    (0 : Int) < 50 ∧
    (countPrepare (take 50 freshUsersQuery)).pageSize = some 0 ∧
    executeQueryOperationTake 0 (take 50 freshUsersQuery) = take 50 freshUsersQuery := by
  refine ⟨by decide, (c1_page_size freshUsersQuery 50 (by decide)).1, ?_⟩
  exact (c1_page_size (take 50 freshUsersQuery) 50 (by decide)).2.2.1

/-- C10: `boost(1.0)` returns before any validation, leaving every builder
state unchanged and raising no error; with any other factor a builder with
no where token raises the missing-where-clause error. -/
theorem c10_boost_one_noop :
    (∀ q : AbstractDocumentQuery, boost 1 q = Except.ok q) ∧
    (∀ b : ℚ, b ≠ 1 →
      boost b freshUsersQuery = Except.error ConstructionError.missingWhereClause) := by
  constructor
  · intro q
    simp [boost]
  · intro b hb
    simp [boost, hb, freshUsersQuery, newAbstractDocumentQuery, getCurrentWhereTokens]

/-- Witness for C10: the no-op at a raw-query builder and the error at the
fresh builder with factor 2. -/
theorem c10_witness :
    boost 1 rawUsersQuery = Except.ok rawUsersQuery ∧
    (2 : ℚ) ≠ 1 ∧
    boost 2 freshUsersQuery = Except.error ConstructionError.missingWhereClause := by
  refine ⟨c10_boost_one_noop.1 rawUsersQuery, by norm_num, ?_⟩
  exact c10_boost_one_noop.2 2 (by norm_num)

/-- C5 counterexample: on a builder with raw query text, the structured
mutators `include`, `take`, `skip` and `distinct` do not fail — they mutate
the builder (or succeed) rather than raising the raw-query error. -/
theorem c5_counterexample :
    rawUsersQuery.queryRaw ≠ "" ∧
    includeCall "name" rawUsersQuery = { rawUsersQuery with includes := ["name"] } ∧
    take 50 rawUsersQuery = { rawUsersQuery with pageSize := some 50 } ∧
    skip 5 rawUsersQuery = { rawUsersQuery with start := 5 } ∧
    distinct rawUsersQuery =
      Except.ok { rawUsersQuery with selectTokens := [QueryToken.distinctTok] } := by
  exact ⟨by decide, rfl, rfl, rfl, rfl⟩

/-- C5 amended: once raw query text is set, the mutators that insert
where/order-by/group-by/subclause tokens fail immediately with the
raw-query construction error, but `include`, `take`, `skip`,
`closeSubclause` and `distinct` perform no raw-query check and succeed. -/
theorem c5_raw_query_mutators (q : AbstractDocumentQuery) (path f terms : String)
    (v w : GoValue) (n m : Int)
    (hraw : q.queryRaw ≠ "") (hmlt : q.isInMoreLikeThis = false) :
    whereEquals f v q = Except.error ConstructionError.rawQueryModify ∧
    whereExists f q = Except.error ConstructionError.rawQueryModify ∧
    search f terms q = Except.error ConstructionError.rawQueryModify ∧
    whereBetween f v w q = Except.error ConstructionError.rawQueryModify ∧
    orderBy f q = Except.error ConstructionError.rawQueryModify ∧
    openSubclause q = Except.error ConstructionError.rawQueryModify ∧
    (q.fromToken.isDynamic = true →
      groupByField f q = Except.error ConstructionError.rawQueryModify) ∧
    includeCall path q = { q with includes := q.includes ++ [path] } ∧
    take n q = { q with pageSize := some n } ∧
    skip m q = { q with start := m } ∧
    closeSubclause q =
      Except.ok { q with
        currentClauseDepth := q.currentClauseDepth - 1,
        whereTokens := q.whereTokens ++ [QueryToken.closeSub] } ∧
    (isDistinctQ q = false → distinct q =
      Except.ok { q with selectTokens := QueryToken.distinctTok :: q.selectTokens }) := by
  refine ⟨?_, ?_, ?_, ?_, ?_, ?_, ?_, rfl, rfl, rfl, ?_, ?_⟩
  · rcases hneg : q.negate with _ | _ <;>
      simp [whereEquals, whereEqualsWithParams, whereEqualsCore, whereNotEqualsCore,
        getCurrentWhereTokens, appendOperatorIfNeededE, hmlt, hneg, hraw,
        Bind.bind, Except.bind]
  · simp [whereExists, getCurrentWhereTokens, appendOperatorIfNeededE, hmlt, hraw,
      Bind.bind, Except.bind]
  · simp [search, searchWithOperator, getCurrentWhereTokens, appendOperatorIfNeededE,
      hmlt, hraw, Bind.bind, Except.bind]
  · simp [whereBetween, getCurrentWhereTokens, appendOperatorIfNeededE, hmlt, hraw,
      Bind.bind, Except.bind]
  · simp [orderBy, hraw]
  · simp [openSubclause, getCurrentWhereTokens, appendOperatorIfNeededE, hmlt, hraw,
      Bind.bind, Except.bind]
  · intro hdyn
    simp [groupByField, hdyn, hraw]
  · simp [closeSubclause, getCurrentWhereTokens, setCurrentWhereTokens, hmlt,
      Bind.bind, Except.bind]
  · intro hdist
    simp [distinct, hdist]

/-- Witness for C5 at the raw-query builder. -/
theorem c5_witness :
    rawUsersQuery.queryRaw ≠ "" ∧
    rawUsersQuery.isInMoreLikeThis = false ∧
    whereEquals "name" (GoValue.str "x") rawUsersQuery =
      Except.error ConstructionError.rawQueryModify ∧
    includeCall "city" rawUsersQuery = { rawUsersQuery with includes := ["city"] } := by
  refine ⟨by decide, rfl, ?_, ?_⟩
  · exact (c5_raw_query_mutators rawUsersQuery "city" "name" "terms" (GoValue.str "x")
      (GoValue.str "y") 1 2 (by decide) rfl).1
  · exact (c5_raw_query_mutators rawUsersQuery "city" "name" "terms" (GoValue.str "x")
      (GoValue.str "y") 1 2 (by decide) rfl).2.2.2.2.2.2.2.1

/-- C2: before a new predicate, if the last token is a completed predicate
or a closed subclause, the default operator is inserted (AND unless the
default is OR), except that OR is forced when the most recent predicate
carries a search operator; with any other last token, or an empty list,
nothing is inserted.  Consequently two whereEquals calls compile with
` and ` under the default operator and with ` or ` when the default is OR. -/
theorem c2_operator_insertion :
    (∀ (dflt : QueryOperator) (ts : List QueryToken) (lastTok : QueryToken),
      ts.getLast? = some lastTok → (isWhereTok lastTok || isCloseSub lastTok) = true →
      appendOperatorIfNeededL dflt ts =
        ts ++ [QueryToken.opTok (if searchForcedOr ts then QueryOperator.opOr else dflt)]) ∧
    (∀ (dflt : QueryOperator) (ts : List QueryToken) (lastTok : QueryToken),
      ts.getLast? = some lastTok → (isWhereTok lastTok || isCloseSub lastTok) = false →
      appendOperatorIfNeededL dflt ts = ts) ∧
    (∀ dflt : QueryOperator, appendOperatorIfNeededL dflt [] = []) ∧
    exTwoEqualsAnd.bind renderQuery =
      Except.ok "from users where name = $p0 and age = $p1" ∧
    exTwoEqualsOr.bind renderQuery =
      Except.ok "from users where name = $p0 or age = $p1" := by
  refine ⟨?_, ?_, fun _ => rfl, rfl, rfl⟩
  · intro dflt ts lastTok hlast hwc
    rcases hfind : findLastWhereOptions ts with _ | opts
    · simp [appendOperatorIfNeededL, hlast, hwc, hfind, searchForcedOr]
    · by_cases hso : opts.searchOperator = SearchOperator.unset
      · simp [appendOperatorIfNeededL, hlast, hwc, hfind, searchForcedOr, hso]
      · simp [appendOperatorIfNeededL, hlast, hwc, hfind, searchForcedOr, hso]
  · intro dflt ts lastTok hlast hwc
    simp [appendOperatorIfNeededL, hlast, hwc]

/-- Witness for C2 at a one-predicate list under the default AND
operator. -/
theorem c2_witness :
    appendOperatorIfNeededL QueryOperator.opAnd
        [createWhereToken WhereOperator.equals "name" "p0"] =
      [createWhereToken WhereOperator.equals "name" "p0",
        QueryToken.opTok QueryOperator.opAnd] := by
  have h := c2_operator_insertion.1 QueryOperator.opAnd
    [createWhereToken WhereOperator.equals "name" "p0"]
    (createWhereToken WhereOperator.equals "name" "p0") rfl rfl
  rw [h]
  rfl

/-! Helper lemmas: the net effect of `negateIfNeeded`, and agreement of the
negate-cleared specializations with the full mutators. -/

theorem whereExists_of_not_negate (f : String) (q : AbstractDocumentQuery)
    (hneg : q.negate = false) (hmlt : q.isInMoreLikeThis = false) :
    whereExists f q = whereExistsNoNegate f q := by
  by_cases hraw : q.queryRaw = "" <;>
    simp [whereExists, whereExistsNoNegate, negateIfNeeded, hneg, hmlt, hraw,
      getCurrentWhereTokens, setCurrentWhereTokens, appendOperatorIfNeededE,
      Bind.bind, Except.bind]

theorem whereTrue_of_not_negate (q : AbstractDocumentQuery)
    (hneg : q.negate = false) (hmlt : q.isInMoreLikeThis = false) :
    whereTrue q = whereTrueNoNegate q := by
  by_cases hraw : q.queryRaw = "" <;>
    simp [whereTrue, whereTrueNoNegate, negateIfNeeded, hneg, hmlt, hraw,
      getCurrentWhereTokens, setCurrentWhereTokens, appendOperatorIfNeededE,
      Bind.bind, Except.bind]

theorem negateIfNeeded_eq (fname : String) (q : AbstractDocumentQuery)
    (hmlt : q.isInMoreLikeThis = false) (hraw : q.queryRaw = "")
    (hneg : q.negate = true) :
    negateIfNeeded fname q = Except.ok { q with
      negate := false,
      whereTokens := q.whereTokens ++ [QueryToken.negateTok] } := by
  by_cases hg : (q.whereTokens.isEmpty ||
      (match q.whereTokens.getLast? with
       | some t => isOpenSub t
       | none => false)) = true
  · by_cases hf : fname = ""
    · simp [negateIfNeeded, hneg, hmlt, hraw, hg, hf, whereTrueNoNegate, andAlso,
        getCurrentWhereTokens, setCurrentWhereTokens, appendOperatorIfNeededE,
        isOpTok, List.getLast?_concat, Bind.bind, Except.bind]
    · simp [negateIfNeeded, hneg, hmlt, hraw, hg, hf, whereExistsNoNegate, andAlso,
        getCurrentWhereTokens, setCurrentWhereTokens, appendOperatorIfNeededE,
        createWhereToken, createWhereTokenWithOptions, isOpTok, List.getLast?_concat,
        Bind.bind, Except.bind]
  · simp only [Bool.or_eq_true] at hg
    push_neg at hg
    simp [negateIfNeeded, hneg, hmlt, hraw, hg.1, hg.2,
      getCurrentWhereTokens, setCurrentWhereTokens, Bind.bind, Except.bind]

/-- C3: the claim matches the guard-synthesis logic the code contains (and
the upstream client it ports performs), but the code appends the negate
marker to the token slice captured before the synthesis and overwrites the
list with it, discarding the synthesized exists/true and AND tokens: with
a pending negation the visible effect is always the prior tokens plus the
negate marker alone, and `negateNext()` followed by `whereExists("name")`
on a fresh query compiles to the bare leading negation
`from users where not exists(name)`, not the exists-guarded form. -/
theorem c3_negate_discards_guard :
    (∀ (q : AbstractDocumentQuery) (f : String), q.isInMoreLikeThis = false →
      q.queryRaw = "" → q.negate = true →
      negateIfNeeded f q = Except.ok { q with
        negate := false,
        whereTokens := q.whereTokens ++ [QueryToken.negateTok] }) ∧
    exNegatedExists.map (fun q' => q'.whereTokens) =
      Except.ok [QueryToken.negateTok,
        createWhereToken WhereOperator.existsOp "name" ""] ∧
    exNegatedExists.bind renderQuery =
      Except.ok "from users where not exists(name)" := by
  refine ⟨?_, rfl, rfl⟩
  intro q f hmlt hraw hneg
  exact negateIfNeeded_eq f q hmlt hraw hneg

/-- Witness for C3 at the fresh builder with a pending negation: only the
negate marker survives. -/
theorem c3_witness :
    negateIfNeeded "name" { freshUsersQuery with negate := true } =
      Except.ok { freshUsersQuery with whereTokens := [QueryToken.negateTok] } := by
  have h := c3_negate_discards_guard.1 { freshUsersQuery with negate := true } "name"
    rfl rfl rfl
  rw [h]
  rfl

/-! Helper lemmas: success and field preservation of the token-list
operations used by `openSubclause`. -/

theorem setCurrentWhereTokens_not_mlt (q : AbstractDocumentQuery) (ts : List QueryToken)
    (hmlt : q.isInMoreLikeThis = false) :
    setCurrentWhereTokens q ts = { q with whereTokens := ts } := by
  simp [setCurrentWhereTokens, hmlt]

theorem getCurrentWhereTokens_not_mlt (q : AbstractDocumentQuery)
    (hmlt : q.isInMoreLikeThis = false) :
    getCurrentWhereTokens q = Except.ok q.whereTokens := by
  simp [getCurrentWhereTokens, hmlt]

theorem negateIfNeeded_ok (fname : String) (q : AbstractDocumentQuery)
    (hmlt : q.isInMoreLikeThis = false) (hraw : q.queryRaw = "") :
    ∃ q' : AbstractDocumentQuery, negateIfNeeded fname q = Except.ok q' ∧
      q'.currentClauseDepth = q.currentClauseDepth ∧
      q'.isInMoreLikeThis = false ∧ q'.queryRaw = "" := by
  rcases hneg : q.negate with _ | _
  · refine ⟨q, ?_, rfl, hmlt, hraw⟩
    simp [negateIfNeeded, hneg]
  · exact ⟨{ q with
      negate := false,
      whereTokens := q.whereTokens ++ [QueryToken.negateTok] },
      negateIfNeeded_eq fname q hmlt hraw hneg, rfl, hmlt, hraw⟩

/-- C8: the depth counter moves by one on open/close, neither call fails
for imbalance, and the render-time check fails with the clause-not-closed
construction error exactly when the depth is nonzero. -/
theorem c8_clause_depth (q : AbstractDocumentQuery) (hraw : q.queryRaw = "")
    (hmlt : q.isInMoreLikeThis = false) :
    (isOkE (renderQuery q) = true ↔ q.currentClauseDepth = 0) ∧
    (q.currentClauseDepth ≠ 0 →
      renderQuery q = Except.error (ConstructionError.clauseNotClosed q.currentClauseDepth)) ∧
    (∃ q1, openSubclause q = Except.ok q1 ∧
      q1.currentClauseDepth = q.currentClauseDepth + 1) ∧
    (∃ q2, closeSubclause q = Except.ok q2 ∧
      q2.currentClauseDepth = q.currentClauseDepth - 1) := by
  refine ⟨?_, ?_, ?_, ?_⟩
  · by_cases hd : q.currentClauseDepth = 0 <;> simp [renderQuery, hraw, hd, isOkE]
  · intro hd
    simp [renderQuery, hraw, hd]
  · have hset := setCurrentWhereTokens_not_mlt
      { q with currentClauseDepth := q.currentClauseDepth + 1 }
      (appendOperatorIfNeededL q.defaultOperator q.whereTokens) hmlt
    obtain ⟨qn, hqn, hdep, hqmlt, _⟩ := negateIfNeeded_ok ""
      { q with
        currentClauseDepth := q.currentClauseDepth + 1,
        whereTokens := appendOperatorIfNeededL q.defaultOperator q.whereTokens }
      hmlt hraw
    refine ⟨setCurrentWhereTokens qn (qn.whereTokens ++ [QueryToken.openSub]), ?_, ?_⟩
    · simp only [hmlt, hraw] at hqn
      simp only [openSubclause, Bind.bind, Except.bind, getCurrentWhereTokens,
        appendOperatorIfNeededE, setCurrentWhereTokens, hmlt, hraw]
      simp [hqn, hqmlt, Bind.bind, Except.bind, setCurrentWhereTokens]
    · rw [setCurrentWhereTokens_not_mlt qn _ hqmlt]
      exact hdep
  · have hget := getCurrentWhereTokens_not_mlt
      { q with currentClauseDepth := q.currentClauseDepth - 1 } hmlt
    refine ⟨setCurrentWhereTokens { q with currentClauseDepth := q.currentClauseDepth - 1 }
      (q.whereTokens ++ [QueryToken.closeSub]), ?_, ?_⟩
    · simp only [closeSubclause, Bind.bind, Except.bind, hget]
    · rw [setCurrentWhereTokens_not_mlt
        { q with currentClauseDepth := q.currentClauseDepth - 1 }
        (q.whereTokens ++ [QueryToken.closeSub]) hmlt]

/-- Witness for C8 at the fresh builder. -/
theorem c8_witness :
    isOkE (renderQuery freshUsersQuery) = true ∧
    (∃ q1, openSubclause freshUsersQuery = Except.ok q1 ∧ q1.currentClauseDepth = 1) := by
  have h := c8_clause_depth freshUsersQuery rfl rfl
  refine ⟨h.1.mpr rfl, ?_⟩
  obtain ⟨q1, hq1, hd⟩ := h.2.2.1
  exact ⟨q1, hq1, by rw [hd]; rfl⟩

/-! Helper lemmas: emptiness of rendered clause fragments. -/

theorem string_data_append (a b : String) : (a ++ b).data = a.data ++ b.data := by
  cases a
  cases b
  rfl

theorem string_append_ne_empty_left (a b : String) (ha : a ≠ "") : a ++ b ≠ "" := by
  intro h
  apply ha
  have hd := congrArg String.data h
  rw [string_data_append] at hd
  have : a.data = [] := (List.append_eq_nil.mp hd).1
  exact string_data_inj this

theorem buildGroupBy_empty_iff (q : AbstractDocumentQuery) :
    buildGroupBy q = "" ↔ q.groupByTokens = [] := by
  rcases hl : q.groupByTokens with _ | ⟨t, ts⟩
  · simp [buildGroupBy, hl]
  · simp only [buildGroupBy, hl, List.isEmpty_cons, Bool.false_eq_true, if_false]
    constructor
    · intro h
      exact absurd h (string_append_ne_empty_left _ _ (by decide))
    · intro h
      cases h

theorem buildWhere_empty_iff (q : AbstractDocumentQuery) :
    buildWhere q = "" ↔ q.whereTokens = [] := by
  rcases hl : q.whereTokens with _ | ⟨t, ts⟩
  · simp [buildWhere, hl]
  · simp only [buildWhere, hl, List.isEmpty_cons, Bool.false_eq_true, if_false]
    constructor
    · intro h
      rw [show (" where " : String) ++ (if q.isIntersect then "intersect(" else "") ++
        writeTokens none (t :: ts) ++ (if q.isIntersect then ") " else "") =
        " where " ++ ((if q.isIntersect then "intersect(" else "") ++
          writeTokens none (t :: ts) ++ (if q.isIntersect then ") " else "")) by
          simp [String.append_assoc]] at h
      exact absurd h (string_append_ne_empty_left _ _ (by decide))
    · intro h
      cases h

theorem buildOrderBy_empty_iff (q : AbstractDocumentQuery) :
    buildOrderBy q = "" ↔ q.orderByTokens = [] := by
  rcases hl : q.orderByTokens with _ | ⟨t, ts⟩
  · simp [buildOrderBy, hl]
  · simp only [buildOrderBy, hl, List.isEmpty_cons, Bool.false_eq_true, if_false]
    constructor
    · intro h
      exact absurd h (string_append_ne_empty_left _ _ (by decide))
    · intro h
      cases h

theorem buildLoad_empty_iff (q : AbstractDocumentQuery) :
    buildLoad q = "" ↔ q.loadTokens = [] := by
  rcases hl : q.loadTokens with _ | ⟨t, ts⟩
  · simp [buildLoad, hl]
  · simp only [buildLoad, hl, List.isEmpty_cons, Bool.false_eq_true, if_false]
    constructor
    · intro h
      exact absurd h (string_append_ne_empty_left _ _ (by decide))
    · intro h
      cases h

theorem buildSelectList_cons_ne_empty (t : QueryToken) (ts : List QueryToken) :
    buildSelectList (t :: ts) ≠ "" := by
  rcases t <;> rcases ts with _ | ⟨t2, ts2⟩ <;>
    first
      | exact (by decide : (" select distinct *" : String) ≠ "")
      | (apply string_append_ne_empty_left
         decide)

theorem buildSelect_empty_iff (q : AbstractDocumentQuery) :
    buildSelect q = "" ↔ q.selectTokens = [] := by
  rcases hl : q.selectTokens with _ | ⟨t, ts⟩
  · simp [buildSelect, buildSelectList, hl]
  · unfold buildSelect
    rw [hl]
    constructor
    · intro h
      exact absurd h (buildSelectList_cons_ne_empty t ts)
    · intro h
      cases h

theorem buildInclude_empty_iff (q : AbstractDocumentQuery) :
    buildInclude q = "" ↔ q.includes = [] := by
  rcases hl : q.includes with _ | ⟨t, ts⟩
  · simp [buildInclude, hl]
  · simp only [buildInclude, hl, List.isEmpty_cons, Bool.false_eq_true, if_false]
    constructor
    · intro h
      exact absurd h (string_append_ne_empty_left _ _ (by decide))
    · intro h
      cases h

theorem buildFrom_ne_empty (q : AbstractDocumentQuery) : buildFrom q ≠ "" := by
  unfold buildFrom writeFromToken
  apply string_append_ne_empty_left
  rcases hd : q.fromToken.isDynamic
  · simp only [hd, Bool.false_eq_true, if_false]
    apply string_append_ne_empty_left
    apply string_append_ne_empty_left
    apply string_append_ne_empty_left
    decide
  · simp only [hd, if_true]
    apply string_append_ne_empty_left
    decide

/-- C7: for a balanced structured builder, rendering succeeds and the text
is the concatenation of the clauses in the fixed order declare, from,
group by, where, order by, load, select, include, each clause rendering to
the empty string exactly when its token list is empty (the from clause is
always present; the declare clause is absent when there is no declare
token). -/
theorem c7_render_order (q : AbstractDocumentQuery) (hbal : q.currentClauseDepth = 0)
    (hraw : q.queryRaw = "") :
    renderQuery q = Except.ok (buildDeclare q ++ buildFrom q ++ buildGroupBy q ++
      buildWhere q ++ buildOrderBy q ++ buildLoad q ++ buildSelect q ++ buildInclude q) ∧
    (q.declareToken = none → buildDeclare q = "") ∧
    buildFrom q ≠ "" ∧
    (buildGroupBy q = "" ↔ q.groupByTokens = []) ∧
    (buildWhere q = "" ↔ q.whereTokens = []) ∧
    (buildOrderBy q = "" ↔ q.orderByTokens = []) ∧
    (buildLoad q = "" ↔ q.loadTokens = []) ∧
    (buildSelect q = "" ↔ q.selectTokens = []) ∧
    (buildInclude q = "" ↔ q.includes = []) := by
  refine ⟨?_, ?_, buildFrom_ne_empty q, buildGroupBy_empty_iff q, buildWhere_empty_iff q,
    buildOrderBy_empty_iff q, buildLoad_empty_iff q, buildSelect_empty_iff q,
    buildInclude_empty_iff q⟩
  · simp [renderQuery, hraw, hbal]
  · intro h
    simp [buildDeclare, h]

/-- Witness for C7 at the fresh builder (balanced, no raw text). -/
theorem c7_witness :
    freshUsersQuery.currentClauseDepth = 0 ∧
    renderQuery freshUsersQuery = Except.ok "from users" := by
  have h := c7_render_order freshUsersQuery rfl rfl
  refine ⟨rfl, ?_⟩
  rw [h.1]
  rfl

/-- C9: `whereBetween` chooses both sentinels from the nullness of the
start value alone: a nil start binds `"*"` below and `"NULL"` above no
matter what the end value is, and a non-nil start binds the transformed
start below and the transformed end above even when the end is nil. -/
theorem c9_where_between (q : AbstractDocumentQuery) (f : String) (s e : GoValue)
    (hmlt : q.isInMoreLikeThis = false) (hraw : q.queryRaw = "") (hneg : q.negate = false)
    (hcanon : CanonicalKeys q.queryParameters) :
    ∃ q', whereBetween f s e q = Except.ok q' ∧
      mapGet? q'.queryParameters (paramName q.queryParameters.length) =
        some (if s = GoValue.null then GoValue.str "*"
          else transformValueWithRange s true) ∧
      mapGet? q'.queryParameters (paramName (q.queryParameters.length + 1)) =
        some (if s = GoValue.null then GoValue.str "NULL"
          else transformValueWithRange e true) ∧
      q'.whereTokens.getLast? = some (createWhereTokenWithOptions WhereOperator.between
        (ensureValidFieldName q.isGroupBy f false) ""
        (some (whereOptionsWithFromTo false (paramName q.queryParameters.length)
          (paramName (q.queryParameters.length + 1))))) := by
  have hfrom : mapContains q.queryParameters (paramName q.queryParameters.length) = false :=
    (canonicalKeys_addQueryParameter q
      (if s = GoValue.null then GoValue.str "*" else transformValueWithRange s true)
      hcanon).2.1
  have hset1 : mapSet q.queryParameters (paramName q.queryParameters.length)
      (if s = GoValue.null then GoValue.str "*" else transformValueWithRange s true) =
      q.queryParameters ++ [(paramName q.queryParameters.length,
        if s = GoValue.null then GoValue.str "*" else transformValueWithRange s true)] :=
    mapSet_of_not_contains _ _ _ hfrom
  have hlen1 : (mapSet q.queryParameters (paramName q.queryParameters.length)
      (if s = GoValue.null then GoValue.str "*"
        else transformValueWithRange s true)).length = q.queryParameters.length + 1 := by
    rw [hset1]
    simp
  have hcanon2 := (canonicalKeys_addQueryParameter q
    (if s = GoValue.null then GoValue.str "*" else transformValueWithRange s true)
    hcanon).2.2.1
  have hto := (canonicalKeys_addQueryParameter
    (addQueryParameter
      (if s = GoValue.null then GoValue.str "*" else transformValueWithRange s true) q).2
    (if s = GoValue.null then GoValue.str "NULL" else transformValueWithRange e true)
    hcanon2).2.1
  have hto' : mapContains
      (q.queryParameters ++ [(paramName q.queryParameters.length,
        if s = GoValue.null then GoValue.str "*" else transformValueWithRange s true)])
      (paramName (q.queryParameters.length + 1)) = false := by
    have := hto
    simp only [addQueryParameter] at this
    rw [hset1] at this
    simpa using this
  have hset2 : mapSet
      (q.queryParameters ++ [(paramName q.queryParameters.length,
        if s = GoValue.null then GoValue.str "*" else transformValueWithRange s true)])
      (paramName (q.queryParameters.length + 1))
      (if s = GoValue.null then GoValue.str "NULL" else transformValueWithRange e true) =
      (q.queryParameters ++ [(paramName q.queryParameters.length,
        if s = GoValue.null then GoValue.str "*" else transformValueWithRange s true)]) ++
      [(paramName (q.queryParameters.length + 1),
        if s = GoValue.null then GoValue.str "NULL" else transformValueWithRange e true)] :=
    mapSet_of_not_contains _ _ _ hto'
  have heq : whereBetween f s e q = Except.ok { q with
      whereTokens := appendOperatorIfNeededL q.defaultOperator q.whereTokens ++
        [createWhereTokenWithOptions WhereOperator.between
          (ensureValidFieldName q.isGroupBy f false) ""
          (some (whereOptionsWithFromTo false (paramName q.queryParameters.length)
            (paramName (q.queryParameters.length + 1))))],
      queryParameters := mapSet (mapSet q.queryParameters
        (paramName q.queryParameters.length)
        (if s = GoValue.null then GoValue.str "*" else transformValueWithRange s true))
        (paramName (q.queryParameters.length + 1))
        (if s = GoValue.null then GoValue.str "NULL"
          else transformValueWithRange e true) } := by
    simp [whereBetween, getCurrentWhereTokens, setCurrentWhereTokens,
      appendOperatorIfNeededE, negateIfNeeded, addQueryParameter, hmlt, hraw, hneg,
      hlen1, Bind.bind, Except.bind]
  refine ⟨_, heq, ?_, ?_, ?_⟩
  · show mapGet? (mapSet (mapSet q.queryParameters (paramName q.queryParameters.length) _)
      (paramName (q.queryParameters.length + 1)) _) (paramName q.queryParameters.length) = _
    rw [hset1, hset2]
    rw [mapGet?_append_ne _ _ _ _ (fun hne => by
      have := paramName_injective hne
      omega)]
    exact mapGet?_of_not_contains _ _ _ hfrom
  · show mapGet? (mapSet (mapSet q.queryParameters (paramName q.queryParameters.length) _)
      (paramName (q.queryParameters.length + 1)) _)
      (paramName (q.queryParameters.length + 1)) = _
    rw [hset1, hset2]
    exact mapGet?_of_not_contains _ _ _ hto'
  · show (appendOperatorIfNeededL q.defaultOperator q.whereTokens ++
      [createWhereTokenWithOptions WhereOperator.between
        (ensureValidFieldName q.isGroupBy f false) ""
        (some (whereOptionsWithFromTo false (paramName q.queryParameters.length)
          (paramName (q.queryParameters.length + 1))))]).getLast? = _
    rw [List.getLast?_concat]

/-- Witness for C9 on the fresh builder with a nil start and non-nil end:
`p0` binds `"*"` and `p1` binds `"NULL"`. -/
theorem c9_witness :
    ∃ q', whereBetween "age" GoValue.null (GoValue.int 5) freshUsersQuery = Except.ok q' ∧
      mapGet? q'.queryParameters "p0" = some (GoValue.str "*") ∧
      mapGet? q'.queryParameters "p1" = some (GoValue.str "NULL") := by
  obtain ⟨q', h1, h2, h3, _⟩ := c9_where_between freshUsersQuery "age" GoValue.null
    (GoValue.int 5) rfl rfl rfl rfl
  refine ⟨q', h1, ?_, ?_⟩
  · simpa using h2
  · simpa using h3

/-! Helper lemmas: the load operation's id handling. -/

theorem byId_idsToCheck (sess : SessionModel) (o : LoadOperation) (id : String) :
    (byId sess o id).idsToCheckOnServer =
      if id ≠ "" ∧ isLoadedOrDeleted sess id = false
      then o.idsToCheckOnServer ++ [id] else o.idsToCheckOnServer := by
  by_cases hid : id = ""
  · simp [byId, hid]
  · by_cases hl : isLoadedOrDeleted sess id <;> by_cases hids : o.ids.isEmpty <;>
      simp [byId, hid, hl, hids]

theorem foldl_byId_idsToCheck (sess : SessionModel) (l : List String) :
    ∀ o : LoadOperation,
      (l.foldl (byId sess) o).idsToCheckOnServer =
        o.idsToCheckOnServer ++
          (l.filter (fun id => id ≠ "" && !(isLoadedOrDeleted sess id))) := by
  induction l with
  | nil => intro o; simp
  | cons x xs ih =>
    intro o
    rw [List.foldl_cons, ih (byId sess o x), byId_idsToCheck]
    by_cases hx : x = ""
    · simp [hx, List.filter_cons]
    · by_cases hl : isLoadedOrDeleted sess x <;>
        simp [hx, hl, List.filter_cons]

theorem mem_foldl_addCaseInsensitive (l : List String) :
    ∀ (acc : List String) (x : String),
      x ∈ l.foldl addCaseInsensitive acc → x ∈ acc ∨ x ∈ l := by
  induction l with
  | nil => intro acc x h; exact Or.inl h
  | cons a as ih =>
    intro acc x h
    rcases ih (addCaseInsensitive acc a) x h with h' | h'
    · unfold addCaseInsensitive at h'
      by_cases hany : (acc.any (fun y => toLowerStr y == toLowerStr a)) = true
      · rw [if_pos hany] at h'
        exact Or.inl h'
      · rw [if_neg hany] at h'
        rcases List.mem_append.mp h' with h'' | h''
        · exact Or.inl h''
        · simp at h''
          exact Or.inr (by simp [h''])
    · exact Or.inr (List.mem_cons_of_mem a h')

theorem pairwise_foldl_addCaseInsensitive (l : List String) :
    ∀ acc : List String, acc.Pairwise (fun a b => toLowerStr a ≠ toLowerStr b) →
      (l.foldl addCaseInsensitive acc).Pairwise
        (fun a b => toLowerStr a ≠ toLowerStr b) := by
  induction l with
  | nil => intro acc h; exact h
  | cons a as ih =>
    intro acc h
    apply ih
    unfold addCaseInsensitive
    by_cases hany : (acc.any (fun y => toLowerStr y == toLowerStr a)) = true
    · rw [if_pos hany]
      exact h
    · rw [if_neg hany]
      rw [List.pairwise_append]
      refine ⟨h, List.pairwise_singleton _ _, ?_⟩
      intro x hx y hy
      simp only [List.mem_singleton] at hy
      subst hy
      intro heq
      apply hany
      rw [List.any_eq_true]
      exact ⟨x, hx, by simp [heq]⟩

/-- C6: `byIds` deduplicates the requested ids case-insensitively, drops
blank ids, and excludes every id already loaded or deleted from the
outgoing list; the concrete batch of three ids yields exactly the two
distinct outbound ids, and when every requested id resolves locally
`createRequest` builds no request. -/
theorem c6_load_dedup :
    (∀ (sess : SessionModel) (ids : List String),
      (byIds sess {} ids).idsToCheckOnServer =
        (dedupCaseInsensitive (ids.filter (fun id => id ≠ ""))).filter
          (fun id => id ≠ "" && !(isLoadedOrDeleted sess id))) ∧
    (∀ (sess : SessionModel) (ids : List String),
      ((byIds sess {} ids).idsToCheckOnServer).Pairwise
        (fun a b => toLowerStr a ≠ toLowerStr b)) ∧
    (∀ (sess : SessionModel) (ids : List String) (id : String),
      id ∈ (byIds sess {} ids).idsToCheckOnServer →
        id ≠ "" ∧ isLoadedOrDeleted sess id = false ∧ id ∈ ids) ∧
    (byIds ⟨[]⟩ {} ["users/1", "Users/1", "users/2"]).idsToCheckOnServer =
      ["users/1", "users/2"] ∧
    (∀ (sess : SessionModel) (ids : List String),
      (∀ id ∈ ids, id = "" ∨ isLoadedOrDeleted sess id = true) →
      createRequest sess (byIds sess {} ids) = none) := by
  have hmain : ∀ (sess : SessionModel) (ids : List String),
      (byIds sess {} ids).idsToCheckOnServer =
        (dedupCaseInsensitive (ids.filter (fun id => id ≠ ""))).filter
          (fun id => id ≠ "" && !(isLoadedOrDeleted sess id)) := by
    intro sess ids
    unfold byIds dedupCaseInsensitive
    rw [foldl_byId_idsToCheck]
    rfl
  refine ⟨hmain, ?_, ?_, rfl, ?_⟩
  · intro sess ids
    rw [hmain]
    exact List.Pairwise.sublist (List.filter_sublist _)
      (pairwise_foldl_addCaseInsensitive _ [] (List.Pairwise.nil))
  · intro sess ids id hmem
    rw [hmain] at hmem
    have hprop := List.of_mem_filter hmem
    simp only [Bool.and_eq_true, decide_eq_true_eq, Bool.not_eq_true'] at hprop
    have hdedup := List.mem_of_mem_filter hmem
    have hin := mem_foldl_addCaseInsensitive _ [] id hdedup
    simp only [List.not_mem_nil, false_or] at hin
    exact ⟨hprop.1, hprop.2, (List.mem_filter.mp hin).1⟩
  · intro sess ids hall
    have hempty : (byIds sess {} ids).idsToCheckOnServer = [] := by
      rw [hmain]
      rw [List.filter_eq_nil_iff]
      intro a ha
      have hin := mem_foldl_addCaseInsensitive _ [] a ha
      simp only [List.not_mem_nil, false_or] at hin
      have hmem := List.mem_filter.mp hin
      have hne : a ≠ "" := by simpa using hmem.2
      rcases hall a hmem.1 with h | h
      · exact absurd h hne
      · simp [hne, h]
    simp [createRequest, hempty]

/-- Witness for C6: a session already tracking `users/1` receives a batch
of two case-variants of it, and no request is constructed. -/
theorem c6_witness :
    (∀ id ∈ ["users/1", "Users/1"], id = "" ∨
      isLoadedOrDeleted ⟨["users/1"]⟩ id = true) ∧
    createRequest ⟨["users/1"]⟩ (byIds ⟨["users/1"]⟩ {} ["users/1", "Users/1"]) = none := by
  refine ⟨by decide, ?_⟩
  exact c6_load_dedup.2.2.2.2 ⟨["users/1"]⟩ ["users/1", "Users/1"] (by decide)

end RavenDBSpec
